import Mathlib

/-!
Verification of the madns request dispatch engine (`src/main.go`).

The Go source is shallowly embedded below.  Conventions:

* Go strings are `String`; byte-level operations are modelled on `String.data`
  (all configured names and literals of interest are ASCII, where Go's
  byte-wise and rune-wise views coincide).
* `config.Handlers` (a Go `map[string]MadnsSubConfig`) is an association list;
  Go map iteration order is unspecified, so the list order stands for one
  arbitrary iteration order and the theorems below only state order-independent
  facts about the matcher.
* The global `RebindMap sync.Map` of `atomic.Uint64` counters is a state
  `RebindState := String → Nat`, default `0` for a never-used key (this is what
  `LoadOrStore(ck, &atomic.Uint64{})` produces); `ctr.Add(1)` stores and
  returns the old value plus one reduced modulo `2 ^ 64` (uint64 arithmetic).
* Each `w.WriteMsg` call is recorded, in order, in the `writes` field of the
  dispatch result; `debouncedSendEmail` / `sendSlackMessage` calls are
  recorded by destination (delivery and the rendered body are the external
  Notifier collaborator, out of the verified core).
* `dnsClient.Exchange(req, redirect)` is an oracle `exchange : Nat → Option Msg`
  giving the outcome of the n-th exchange attempt of one `handleRedirect`
  call (`none` = the Go `err != nil` case); timeouts and the tcp/udp choice
  of lines 171-174 have no further observable effect in the model.
* The Go panic from indexing `req.Question[0]` with an empty question section
  is modelled by an outer `Option`: `handleDNS` returns `none` exactly when
  the source would panic.
-/

namespace Madns

/-! ## ASCII lowercasing (models Go `strings.ToLower` on ASCII input) -/

/-- Lowercase one character: models Go `strings.ToLower` character mapping
restricted to ASCII (Unicode simple case folding outside ASCII is elided;
DNS names and config keys are ASCII). -/
def lowerChar (c : Char) : Char :=
  if 65 ≤ c.toNat ∧ c.toNat ≤ 90 then Char.ofNat (c.toNat + 32) else c

/-- Models Go `strings.ToLower` (ASCII). -/
def lower (s : String) : String := ⟨s.data.map lowerChar⟩

/-! ## Suffix utilities (model Go `strings.HasSuffix` / `strings.TrimSuffix`) -/

/-- Models Go `strings.HasSuffix s suffix`: `suffix` is a trailing substring
of `s` (tested here on reversed character lists). -/
def hasSuffix (s suffix : String) : Bool :=
  suffix.data.reverse.isPrefixOf s.data.reverse

/-- Models Go `strings.TrimSuffix s suffix`: remove one trailing copy of
`suffix` if present (`s[:len(s)-len(suffix)]`), else return `s` unchanged. -/
def trimSuffix (s suffix : String) : String :=
  if hasSuffix s suffix then ⟨s.data.take (s.data.length - suffix.data.length)⟩
  else s

/-! ## dns.Fqdn (miekg/dns helper used at line 114) -/

/-- Models `dns.IsFqdn`: the name ends in an (unescaped) dot.  The
backslash-escape counting of the library is elided: no configured key of
interest contains `\`. -/
def isFqdn (s : String) : Bool := hasSuffix s "."

/-- Models `dns.Fqdn`: append a trailing dot unless already fully qualified. -/
def Fqdn (s : String) : String := if isFqdn s then s else s ++ "."

/-! ## Go `net.ParseIP`

Modelled from the Go standard library (`net.ParseIP` delegating to
`netip.ParseAddr`, Go 1.17+): the first of `.` `:` `%` decides the syntax
family; IPv4 is four decimal octets with no leading zeros; IPv6 is the full
hex-group grammar with at most one `::`, optional trailing dotted IPv4, and
rejection of zone suffixes (`ParseIP` refuses any address carrying a zone).
The result is the 16-byte representation `As16` (IPv4 results are returned
in the v4-in-v6 mapped form, as `net.ParseIP` does). -/

/-- Models `netip.parseIPv4Fields`: scan decimal octets separated by dots.
`val` is the current field value, `digLen` the number of digits seen in the
current field, `fields` the completed fields.  Returns the four field
values. -/
def parseV4Fields : List Char → Nat → Nat → List Nat → Option (List Nat)
  | [], val, _, fields =>
    if fields.length < 3 then none
    else some (fields ++ [val])
  | c :: rest, val, digLen, fields =>
    if 48 ≤ c.toNat ∧ c.toNat ≤ 57 then
      if digLen = 1 ∧ val = 0 then none
      else
        let val2 := val * 10 + (c.toNat - 48)
        if 255 < val2 then none
        else parseV4Fields rest val2 (digLen + 1) fields
    else if c = '.' then
      if digLen = 0 ∨ rest.isEmpty then none
      else if fields.length = 3 then none
      else parseV4Fields rest 0 0 (fields ++ [val])
    else none

/-- The IPv4-in-IPv6 mapped 16-byte form of four IPv4 octets (`As16` of an
IPv4 `netip.Addr`, i.e. the `v4InV6Prefix` of `net.IPv4`). -/
def v4InV6 (f : List Nat) : List Nat := [0, 0, 0, 0, 0, 0, 0, 0, 0, 0, 255, 255] ++ f

/-- Models `netip.parseIPv4` followed by the 16-byte widening of
`net.ParseIP`. -/
def parseIPv4 (s : List Char) : Option (List Nat) :=
  (parseV4Fields s 0 0 []).map v4InV6

/-- Value of one hex digit, if `c` is one (models the digit cases of the
group scan in `netip.parseIPv6`). -/
def hexVal (c : Char) : Option Nat :=
  if 48 ≤ c.toNat ∧ c.toNat ≤ 57 then some (c.toNat - 48)
  else if 97 ≤ c.toNat ∧ c.toNat ≤ 102 then some (c.toNat - 87)
  else if 65 ≤ c.toNat ∧ c.toNat ≤ 70 then some (c.toNat - 55)
  else none

/-- Read the leading hex group: accumulated value, the digit characters
consumed (needed verbatim for the trailing-IPv4 re-parse), and the rest.
Fails on a fifth hex digit (Go's `off > 3` check) or an empty group. -/
def readV6Group : List Char → Nat → List Char → Option (Nat × List Char × List Char)
  | [], acc, digs => if digs.isEmpty then none else some (acc, digs.reverse, [])
  | c :: rest, acc, digs =>
    match hexVal c with
    | some v =>
      if 3 < digs.length then none
      else readV6Group rest (acc * 16 + v) (c :: digs)
    | none => if digs.isEmpty then none else some (acc, digs.reverse, c :: rest)

/-- Post-loop phase of `netip.parseIPv6`: the whole input must be consumed;
a short address needs an ellipsis, which expands to the missing zero bytes
at its recorded position; a full 16-byte address must not also carry an
ellipsis. -/
def finishV6 (s : List Char) (i : Nat) (ellipsis : Option Nat) (ip : List Nat) :
    Option (List Nat) :=
  if s.isEmpty then
    if i < 16 then
      match ellipsis with
      | none => none
      | some e => some (ip.take e ++ List.replicate (16 - i) 0 ++ ip.drop e)
    else
      match ellipsis with
      | some _ => none
      | none => some ip
  else none

/-- Main loop of `netip.parseIPv6` (fuel-based; the fuel passed by
`parseIPv6` always suffices since every iteration consumes at least one
character).  `i` is the number of bytes already produced, `ellipsis` the
byte position of a `::` if seen. -/
def parseV6Loop : Nat → List Char → Nat → Option Nat → List Nat → Option (List Nat)
  | 0, _, _, _, _ => none
  | fuel + 1, s, i, ellipsis, ip =>
    if 16 ≤ i then finishV6 s i ellipsis ip
    else
      match readV6Group s 0 [] with
      | none => none
      | some (acc, digs, rest) =>
        match rest with
        | '.' :: _ =>
          if ellipsis.isNone ∧ i ≠ 12 then none
          else if 16 < i + 4 then none
          else
            match parseV4Fields (digs ++ rest) 0 0 [] with
            | none => none
            | some f4 => finishV6 [] (i + 4) ellipsis (ip ++ f4)
        | _ =>
          let ip2 := ip ++ [acc / 256, acc % 256]
          let i2 := i + 2
          match rest with
          | [] => finishV6 [] i2 ellipsis ip2
          | ':' :: rest2 =>
            match rest2 with
            | [] => none
            | ':' :: rest3 =>
              if ellipsis.isSome then none
              else
                match rest3 with
                | [] => finishV6 [] i2 (some i2) ip2
                | _ :: _ => parseV6Loop fuel rest3 i2 (some i2) ip2
            | _ :: _ => parseV6Loop fuel rest2 i2 ellipsis ip2
          | _ => none

/-- Models `netip.parseIPv6` as consumed through `net.ParseIP`: any zone
suffix (`%...`) is rejected (an empty zone is a parse error and `ParseIP`
refuses every non-empty one), a leading `::` primes the ellipsis, and the
bare `::` is the all-zero address. -/
def parseIPv6 (s : List Char) : Option (List Nat) :=
  if s.contains '%' then none
  else
    match s with
    | ':' :: ':' :: rest =>
      match rest with
      | [] => some (List.replicate 16 0)
      | _ :: _ => parseV6Loop (rest.length + 1) rest 0 (some 0) []
    | _ => parseV6Loop (s.length + 1) s 0 none []

/-- Scan for the first of `.` `:` `%` to pick the syntax family
(models the dispatch loop of `netip.ParseAddr`). -/
def parseAddrScan (full : List Char) : List Char → Option (List Nat)
  | [] => none
  | c :: rest =>
    if c = '.' then parseIPv4 full
    else if c = ':' then parseIPv6 full
    else if c = '%' then none
    else parseAddrScan full rest

/-- Models Go `net.ParseIP`; `none` is Go's `nil` result.  A successful
parse is the 16-byte address. -/
def ParseIP (s : String) : Option (List Nat) := parseAddrScan s.data s.data

/-- Models Go `net.IP.To4`: the 4-byte form, available exactly for 4-byte
addresses and 16-byte addresses with the v4-in-v6 mapped first 12 bytes
(`isZeros(ip[0:10]) && ip[10] == 0xff && ip[11] == 0xff`). -/
def To4 (ip : List Nat) : Option (List Nat) :=
  if ip.length = 4 then some ip
  else if ip.length = 16 ∧ ip.take 12 = [0, 0, 0, 0, 0, 0, 0, 0, 0, 0, 255, 255] then
    some (ip.drop 12)
  else none

/-! ## DNS message model (the parts of miekg/dns the core reads and writes) -/

/-- One entry of the question section; only the name is consulted by the
core (`Qtype`/`Qclass` are never read), so only it is modelled. -/
structure Question where
  Name : String
deriving DecidableEq, Repr

/-- `dns.RR_Header` fields set by `handleRespond`. -/
structure RR_Header where
  Name : String
  Rrtype : Nat
  Class : Nat
  Ttl : Nat
deriving DecidableEq, Repr

/-- The three record kinds `handleRespond` builds.  The `A` and `AAAA`
payloads hold the `net.IP` byte slice exactly as assigned in the source
(the 16-byte `ParseIP` result in both cases). -/
inductive RR where
  | A (Hdr : RR_Header) (ipA : List Nat)
  | AAAA (Hdr : RR_Header) (ipAAAA : List Nat)
  | CNAME (Hdr : RR_Header) (Target : String)
deriving DecidableEq, Repr

/-- The fields of `dns.Msg` the core reads or writes.  Header fields the
core never branches on (`Id`, `Response`, `Opcode`, ...) are elided. -/
structure Msg where
  Question : List Question := []
  Answer : List RR := []
  Rcode : Nat := 0
  Compress : Bool := false
deriving DecidableEq, Repr

def TypeA : Nat := 1
def TypeCNAME : Nat := 5
def TypeAAAA : Nat := 28
def ClassINET : Nat := 1
def RcodeSuccess : Nat := 0
def RcodeServerFailure : Nat := 2

/-- Models `m := new(dns.Msg); m.SetReply(req)`: echo the first question
(when present), success status, nothing else. -/
def setReply (req : Msg) : Msg :=
  { Question := req.Question.take 1, Answer := [], Rcode := RcodeSuccess,
    Compress := false }

/-- Models `m.SetReply(req)` followed by `m.SetRcode(req, rcode)` (the
source always pairs them). -/
def setRcode (req : Msg) (rcode : Nat) : Msg :=
  { setReply req with Rcode := rcode }

/-! ## madns configuration structures (`main.go` lines 21-48) -/

/-- `MadnsRebindConfig` - rebind address list. -/
structure MadnsRebindConfig where
  Addrs : List String
deriving DecidableEq, Repr

/-- `MadnsSubConfig` - one handler entry. -/
structure MadnsSubConfig where
  Redirect : String := ""
  NotifyEmail : String := ""
  Respond : String := ""
  NotifySlack : String := ""
  Rebind : Option MadnsRebindConfig := none
deriving DecidableEq, Repr

/-- `MadnsConfig` - top-level config.  `Handlers` is the Go map as an
association list (iteration order unspecified in Go; the list order stands
for one iteration order). -/
structure MadnsConfig where
  SMTPUser : String := ""
  SMTPPassword : String := ""
  SMTPServer : String := ""
  SMTPDelay : Int := 0
  Port : Int := 0
  Handlers : List (String × MadnsSubConfig) := []
deriving DecidableEq, Repr

/-! ## Rebind state (the global `RebindMap sync.Map` of `atomic.Uint64`) -/

/-- Counter store: value per key; `0` for a key never stored (what
`LoadOrStore(ck, &atomic.Uint64{})` yields on first use). -/
def RebindState := String → Nat

/-- The uint64 modulus. -/
def U64 : Nat := 2 ^ 64

/-! ## handleRespond (lines 199-233) -/

/-- Body of the answer loop of `handleRespond` for one question:
`net.ParseIP` failure gives a CNAME to the literal with one trailing dot
trimmed and a dot appended; otherwise `To4` decides AAAA versus A.  TTL is
0 and the owner name is the question name in every branch. -/
def buildAnswer (q : Question) (respond : String) : RR :=
  match ParseIP respond with
  | none =>
    RR.CNAME { Name := q.Name, Rrtype := TypeCNAME, Class := ClassINET, Ttl := 0 }
      (trimSuffix respond "." ++ ".")
  | some ip =>
    match To4 ip with
    | none =>
      RR.AAAA { Name := q.Name, Rrtype := TypeAAAA, Class := ClassINET, Ttl := 0 } ip
    | some _ =>
      RR.A { Name := q.Name, Rrtype := TypeA, Class := ClassINET, Ttl := 0 } ip

/-- `handleRespond`: success reply with one answer per question, all built
from the same literal. -/
def handleRespond (req : Msg) (respond : String) : Msg :=
  { setRcode req RcodeSuccess with
    Answer := req.Question.map (fun q => buildAnswer q respond) }

/-! ## handleRedirect (lines 170-197) -/

/-- The `retry:`/`goto retry` loop of `handleRedirect` with its `retries`
counter: attempt the exchange; on success write the reply marked
compression-eligible; on failure retry while `retries > 0`, else write a
server-failure reply. -/
def redirectReply (req : Msg) (exchange : Nat → Option Msg) :
    Nat → Nat → Msg
  | attempt, retries =>
    match exchange attempt with
    | some r => { r with Compress := true }
    | none =>
      match retries with
      | n + 1 => redirectReply req exchange (attempt + 1) n
      | 0 => setRcode req RcodeServerFailure

/-- `handleRedirect` enters the loop with `retries := 1` and writes exactly
one message. -/
def handleRedirect (req : Msg) (exchange : Nat → Option Msg) : Msg :=
  redirectReply req exchange 0 1

/-! ## handleDNS (lines 103-168) -/

/-- The match condition of line 116 for one key: the lowercased query name
equals the lowercased fully-qualified key or has it, preceded by a dot, as
a suffix. -/
def matchesKey (qname k : String) : Bool :=
  let reqFqdn := lower qname
  let handlerFqdn := lower (Fqdn k)
  reqFqdn == handlerFqdn || hasSuffix reqFqdn ("." ++ handlerFqdn)

/-- The handler scan of lines 109-122: skip the default key `"."`; at each
other key read `req.Question[0].Name` (outer `none` models the Go panic
when the question section is empty) and stop at the first match.
Result: `some none` = loop finished without a match. -/
def matchHandlers (handlers : List (String × MadnsSubConfig)) (req : Msg) :
    Option (Option (String × MadnsSubConfig)) :=
  match handlers with
  | [] => some none
  | (k, v) :: rest =>
    if k = "." then matchHandlers rest req
    else
      match req.Question.head? with
      | none => none
      | some q => if matchesKey q.Name k then some (some (k, v)) else matchHandlers rest req

/-- The `config.Handlers["."]` lookup of line 124. -/
def lookupDefault (handlers : List (String × MadnsSubConfig)) : Option MadnsSubConfig :=
  (handlers.find? (fun kv => kv.1 == ".")).map (fun kv => kv.2)

/-- Lines 109-130: the scan, then the default-key fallback.  `some none` =
no handler at all (`processThis` still false). -/
def selectPolicy (handlers : List (String × MadnsSubConfig)) (req : Msg) :
    Option (Option (String × MadnsSubConfig)) :=
  match matchHandlers handlers req with
  | none => none
  | some (some kv) => some (some kv)
  | some none =>
    match lookupDefault handlers with
    | some cnf => some (some (".", cnf))
    | none => some none

/-- Destinations handed to `debouncedSendEmail` (line 160). -/
def notifyEmails (c : MadnsSubConfig) : List String :=
  if 0 < c.NotifyEmail.length then [c.NotifyEmail] else []

/-- Destinations handed to `sendSlackMessage` (line 165). -/
def notifySlacks (c : MadnsSubConfig) : List String :=
  if 0 < c.NotifySlack.length then [c.NotifySlack] else []

/-- Observable outcome of one `handleDNS` call: the messages written to the
client, in order, and the notification destinations fired. -/
structure DispatchResult where
  writes : List Msg
  emails : List String
  slacks : List String
deriving DecidableEq, Repr

/-- Lines 140-167 for a matched policy `c` under key `ck`: the strict
if/else-if action chain (note there is no final else), then the
notification block.  The rebind branch is the `LoadOrStore` +
`(ctr.Add(1) - 1) % uint64(len)` round robin; `ctr.Add(1)` stores the
incremented value modulo `2 ^ 64` and the `- 1` is uint64 subtraction.
The list index is in range because the guard gives a positive length, so
`getD` never falls back to its default. -/
def dispatchMatched (req : Msg) (exchange : Nat → Option Msg)
    (st : RebindState) (ck : String) (c : MadnsSubConfig) :
    DispatchResult × RebindState :=
  let acted : List Msg × RebindState :=
    if 0 < c.Redirect.length then
      ([handleRedirect req exchange], st)
    else if 0 < c.Respond.length then
      ([handleRespond req c.Respond], st)
    else
      match c.Rebind with
      | some rc =>
        if 0 < rc.Addrs.length then
          let stored := (st ck + 1) % U64
          let idx := ((stored + (U64 - 1)) % U64) % rc.Addrs.length
          ([handleRespond req (rc.Addrs.getD idx "")],
           fun k => if k = ck then stored else st k)
        else ([], st)
      | none => ([], st)
  (⟨acted.1, notifyEmails c, notifySlacks c⟩, acted.2)

/-- `handleDNS`: select the policy (possibly panicking on an empty question
section, modelled as `none`); with no handler, log and write one
server-failure reply (the log line also reads `req.Question[0].Name`);
with a handler, run the action chain and the notifications. -/
def handleDNS (req : Msg) (config : MadnsConfig)
    (exchange : Nat → Option Msg) (st : RebindState) :
    Option (DispatchResult × RebindState) :=
  match selectPolicy config.Handlers req with
  | none => none
  | some none =>
    match req.Question.head? with
    | none => none
    | some _ => some (⟨[setRcode req RcodeServerFailure], [], []⟩, st)
  | some (some kc) => some (dispatchMatched req exchange st kc.1 kc.2)

/-! ## Sequential dispatch (for the round-robin claims) -/

/-- Rebind store state after `n` sequential `handleDNS` calls with the same
request (`none` once any call panics). -/
def stateAfter (req : Msg) (config : MadnsConfig)
    (exchange : Nat → Option Msg) (st : RebindState) : Nat → Option RebindState
  | 0 => some st
  | n + 1 =>
    (stateAfter req config exchange st n).bind
      (fun s => (handleDNS req config exchange s).map (fun r => r.2))

/-- Result of the `(n+1)`-st sequential dispatch (0-based `n`): the `j`-th
dispatch of the spec is `dispatchAt _ _ _ _ (j - 1)`. -/
def dispatchAt (req : Msg) (config : MadnsConfig)
    (exchange : Nat → Option Msg) (st : RebindState) (n : Nat) :
    Option DispatchResult :=
  (stateAfter req config exchange st n).bind
    (fun s => (handleDNS req config exchange s).map (fun r => r.1))

/-! ## Shared concrete fixtures used by witnesses and counterexamples -/

/-- The all-zero counter store (every counter fresh). -/
def st0 : RebindState := fun _ => 0

/-- An upstream that always fails. -/
def exNone : Nat → Option Msg := fun _ => none

/-- The rebind list of the end-to-end example of the spec, extended to
length 3 (3 does not divide `2 ^ 64`). -/
def rebindAddrs : List String := ["10.0.0.1", "10.0.0.2", "10.0.0.3"]

/-- A config with a single rebind-only handler. -/
def cfgR : MadnsConfig :=
  { Handlers := [("rebind.test", { Rebind := some { Addrs := rebindAddrs } })] }

/-- A query for the rebind handler. -/
def reqR : Msg := { Question := [{ Name := "rebind.test." }] }

/-! ## Helper lemmas: strings -/

theorem string_data_append (s t : String) : (s ++ t).data = s.data ++ t.data := by
  cases s; cases t; rfl

theorem char_toNat_ofNat {n : Nat} (h : n.isValidChar) : (Char.ofNat n).toNat = n := by
  simp only [Char.ofNat]
  rw [dif_pos h]
  rfl

theorem lowerChar_idem (c : Char) : lowerChar (lowerChar c) = lowerChar c := by
  by_cases h : 65 ≤ c.toNat ∧ c.toNat ≤ 90
  · have hv : (c.toNat + 32).isValidChar := Or.inl (by omega)
    simp only [lowerChar, if_pos h]
    rw [if_neg]
    rw [char_toNat_ofNat hv]
    omega
  · simp only [lowerChar, if_neg h]

theorem lowerChar_eq_dot {c : Char} : lowerChar c = '.' ↔ c = '.' := by
  constructor
  · intro h
    by_cases hc : 65 ≤ c.toNat ∧ c.toNat ≤ 90
    · exfalso
      have ht := congrArg Char.toNat h
      rw [lowerChar, if_pos hc, char_toNat_ofNat (Or.inl (by omega))] at ht
      have : ('.').toNat = 46 := by decide
      omega
    · rwa [lowerChar, if_neg hc] at h
  · intro h
    subst h
    decide

theorem map_lowerChar_idem (l : List Char) :
    (l.map lowerChar).map lowerChar = l.map lowerChar := by
  induction l with
  | nil => rfl
  | cons c cs ih => simp only [List.map_cons, lowerChar_idem, ih]

theorem lower_idem (s : String) : lower (lower s) = lower s := by
  cases s with
  | mk l => simp only [lower, map_lowerChar_idem]

theorem lower_append (s t : String) : lower (s ++ t) = lower s ++ lower t := by
  cases s with
  | mk a =>
    cases t with
    | mk b =>
      show String.mk ((a ++ b).map lowerChar) = String.mk (a.map lowerChar ++ b.map lowerChar)
      rw [List.map_append]

theorem hasSuffix_dot_lower (s : String) : hasSuffix (lower s) "." = hasSuffix s "." := by
  cases s with
  | mk l =>
    show List.isPrefixOf ['.'] ((l.map lowerChar).reverse) = List.isPrefixOf ['.'] l.reverse
    rw [← List.map_reverse]
    cases l.reverse with
    | nil => rfl
    | cons c cs =>
      simp only [List.map_cons, List.isPrefixOf, List.isPrefixOf_nil_left, Bool.and_true]
      by_cases hc : c = '.'
      · subst hc
        rw [show lowerChar '.' = '.' from by decide]
      · have h1 : lowerChar c ≠ '.' := fun h => hc (lowerChar_eq_dot.mp h)
        rw [beq_eq_false_iff_ne.mpr (Ne.symm h1), beq_eq_false_iff_ne.mpr (Ne.symm hc)]

theorem lower_Fqdn (k : String) : lower (Fqdn k) = Fqdn (lower k) := by
  unfold Fqdn isFqdn
  rw [hasSuffix_dot_lower]
  by_cases h : hasSuffix k "." = true
  · rw [if_pos h, if_pos h]
  · rw [if_neg h, if_neg h, lower_append]
    rfl

theorem matchesKey_lower (name k : String) :
    matchesKey (lower name) (lower k) = matchesKey name k := by
  unfold matchesKey
  rw [lower_idem name, lower_Fqdn (lower k), lower_idem k, ← lower_Fqdn k]

/-! ## Helper lemmas: trailing dots of the CNAME target -/

theorem hasSuffix_append_dot (x : String) : hasSuffix (x ++ ".") "." = true := by
  unfold hasSuffix
  rw [string_data_append]
  show List.isPrefixOf ['.'] ((x.data ++ ['.']).reverse) = true
  rw [List.reverse_append]
  simp [List.isPrefixOf]

theorem trim_dot_no_double (lit : String) (h2 : hasSuffix lit ".." = false) :
    hasSuffix (trimSuffix lit "." ++ ".") ".." = false := by
  unfold hasSuffix at h2 ⊢
  rw [string_data_append]
  show List.isPrefixOf ['.', '.'] (((trimSuffix lit ".").data ++ ['.']).reverse) = false
  rw [List.reverse_append]
  simp only [List.reverse_cons, List.reverse_nil, List.nil_append, List.cons_append,
    List.isPrefixOf, beq_self_eq_true, Bool.true_and, List.nil_append] at h2 ⊢
  by_cases h1 : hasSuffix lit "." = true
  · -- the literal ends in exactly one dot: the trim removes it
    have h1' : List.isPrefixOf ['.'] lit.data.reverse = true := h1
    obtain ⟨w, hw⟩ : ∃ w, lit.data.reverse = '.' :: w := by
      cases hrev : lit.data.reverse with
      | nil => rw [hrev] at h1'; simp [List.isPrefixOf] at h1'
      | cons c cs =>
        rw [hrev] at h1'
        simp only [List.isPrefixOf, List.isPrefixOf_nil_left, Bool.and_true,
          beq_iff_eq] at h1'
        exact ⟨cs, by rw [← h1']⟩
    have hdata : lit.data = w.reverse ++ ['.'] := by
      have := congrArg List.reverse hw
      rwa [List.reverse_reverse, List.reverse_cons] at this
    have hlen : lit.data.length = w.length + 1 := by
      rw [hdata]; simp
    have htake : (trimSuffix lit ".").data = w.reverse := by
      unfold trimSuffix
      rw [if_pos h1]
      show (lit.data.take (lit.data.length - 1)) = w.reverse
      rw [hlen, Nat.add_sub_cancel, hdata, List.take_left' (List.length_reverse w)]
    rw [htake, List.reverse_reverse]
    -- `lit` does not end in two dots, so `w` does not start with a dot
    rw [hw] at h2
    simp only [List.isPrefixOf, beq_self_eq_true, Bool.true_and] at h2
    simpa using h2
  · -- no trailing dot: the trim is the identity and the target ends in one dot
    have h1' : hasSuffix lit "." = false := by
      cases h : hasSuffix lit "." with
      | true => exact absurd h h1
      | false => rfl
    unfold trimSuffix
    rw [h1']
    simp only [Bool.false_eq_true, if_false]
    have : List.isPrefixOf ['.'] lit.data.reverse = false := h1'
    simpa using this

/-! ## Helper lemmas: uint64 round-robin arithmetic -/

theorem U64_pos : 0 < U64 := Nat.two_pow_pos 64

theorem rebindIdx (a : Nat) : ((a + 1) % U64 + (U64 - 1)) % U64 = a % U64 := by
  rw [Nat.mod_add_mod]
  have h : 0 < U64 := U64_pos
  have : a + 1 + (U64 - 1) = a + U64 := by omega
  rw [this, Nat.add_mod_right]

theorem mod_U64_mod (a : Nat) : a % U64 % U64 = a % U64 :=
  Nat.mod_eq_of_lt (Nat.mod_lt _ U64_pos)

/-- The same cancellation in the shape `simp` leaves after
`Nat.mod_add_mod`. -/
theorem rebindIdx2 (a : Nat) : (a + 1 + (U64 - 1)) % U64 = a % U64 := by
  have h : 0 < U64 := U64_pos
  have e : a + 1 + (U64 - 1) = a + U64 := by omega
  rw [e, Nat.add_mod_right]

/-- A handler with only notification targets set. -/
def subN : MadnsSubConfig := { NotifyEmail := "ops@example.org" }

/-- A config whose only handler is the notification-only policy. -/
def cfgN : MadnsConfig := { Handlers := [("x.com", subN)] }

/-- A query matching the notification-only policy. -/
def reqN : Msg := { Question := [{ Name := "x.com." }] }

/-- A handler with both a redirect and a respond literal configured. -/
def subB : MadnsSubConfig := { Redirect := "127.0.0.1:5353", Respond := "1.2.3.4" }

/-- A config whose only handler has both redirect and respond set. -/
def cfgB : MadnsConfig := { Handlers := [("both.test", subB)] }

/-- A query matching that handler. -/
def reqB : Msg := { Question := [{ Name := "both.test." }] }

/-! ## Claim C1 -/

/-- Counterexample to C1 as stated: for the matched no-action policy of
`cfgN`, the dispatcher writes nothing at all to the client — there is no
reply carrying a success status, because the if/else-if action chain of
lines 140-153 has no final else branch. -/
theorem claimC1_counterexample :
    (handleDNS reqN cfgN exNone st0).map (fun r => r.1.writes) = some [] := by
  decide

/-- C1 amended: for every inbound query that matches a policy whose
redirect is empty, whose respond is empty, and whose rebind is absent or
has an empty address list, the dispatcher writes no reply to the client at
all (the action chain falls through without a `WriteMsg`); it still fires
the configured notifications, and the rebind state is unchanged. -/
theorem claimC1 (req : Msg) (config : MadnsConfig) (exchange : Nat → Option Msg)
    (st : RebindState) (ck : String) (c : MadnsSubConfig)
    (hsel : selectPolicy config.Handlers req = some (some (ck, c)))
    (hr : c.Redirect.length = 0) (hresp : c.Respond.length = 0)
    (hreb : c.Rebind = none ∨ c.Rebind = some { Addrs := [] }) :
    handleDNS req config exchange st =
      some (⟨[], notifyEmails c, notifySlacks c⟩, st) := by
  have hd : dispatchMatched req exchange st ck c =
      (⟨[], notifyEmails c, notifySlacks c⟩, st) := by
    rcases hreb with h | h <;> simp [dispatchMatched, hr, hresp, h]
  simp [handleDNS, hsel, hd]

/-- Witness for C1 (amended) at a concrete input: the notification-only
policy writes nothing and fires its email notification. -/
theorem claimC1_witness :
    handleDNS reqN cfgN exNone st0 =
      some (⟨[], notifyEmails subN, notifySlacks subN⟩, st0) :=
  claimC1 reqN cfgN exNone st0 "x.com" subN (by decide) rfl rfl (Or.inl rfl)

/-! ## Claim C3 -/

/-- C3: action selection for a matched policy is a strict priority order.
A non-empty redirect forwards and nothing is synthesized and the rebind
counter is untouched, whatever respond and rebind hold; else a non-empty
respond synthesizes the respond literal; else a rebind with a non-empty
list synthesizes the round-robin pick and advances only the matched key's
counter.  In every case exactly one message is written. -/
theorem claimC3 (req : Msg) (config : MadnsConfig) (exchange : Nat → Option Msg)
    (st : RebindState) (ck : String) (c : MadnsSubConfig)
    (hsel : selectPolicy config.Handlers req = some (some (ck, c))) :
    (0 < c.Redirect.length →
      handleDNS req config exchange st =
        some (⟨[handleRedirect req exchange], notifyEmails c, notifySlacks c⟩, st)) ∧
    (c.Redirect.length = 0 → 0 < c.Respond.length →
      handleDNS req config exchange st =
        some (⟨[handleRespond req c.Respond], notifyEmails c, notifySlacks c⟩, st)) ∧
    (∀ rc, c.Redirect.length = 0 → c.Respond.length = 0 → c.Rebind = some rc →
      0 < rc.Addrs.length →
      handleDNS req config exchange st =
        some (⟨[handleRespond req (rc.Addrs.getD (st ck % U64 % rc.Addrs.length) "")],
               notifyEmails c, notifySlacks c⟩,
              fun k => if k = ck then (st ck + 1) % U64 else st k)) := by
  refine ⟨?_, ?_, ?_⟩
  · intro hr
    simp [handleDNS, hsel, dispatchMatched, hr]
  · intro hr hresp
    simp [handleDNS, hsel, dispatchMatched, hr, hresp]
  · intro rc hr hresp hreb hlen
    simp [handleDNS, hsel, dispatchMatched, hr, hresp, hreb, hlen, rebindIdx, rebindIdx2]

/-- Witness for C3 at a concrete input: the policy with both redirect and
respond set forwards (here: both upstream attempts fail, so the forwarded
outcome is the server-failure reply) and never synthesizes. -/
theorem claimC3_witness :
    handleDNS reqB cfgB exNone st0 =
      some (⟨[handleRedirect reqB exNone], notifyEmails subB, notifySlacks subB⟩, st0) :=
  (claimC3 reqB cfgB exNone st0 "both.test" subB (by decide)).1 (by decide)

/-! ## Claim C10 -/

/-- The handler scan reads the inbound message only through
`req.Question[0].Name`. -/
theorem matchHandlers_head_congr (req req2 : Msg)
    (hq : req.Question.head? = req2.Question.head?) :
    ∀ handlers, matchHandlers handlers req = matchHandlers handlers req2 := by
  intro handlers
  induction handlers with
  | nil => rfl
  | cons hd tl ih =>
    obtain ⟨k, v⟩ := hd
    simp only [matchHandlers, hq, ih]

/-- C10: policy selection depends only on the first question of the
inbound query — two queries with the same first question (in particular,
multi-question queries differing after the first) select the same policy —
while the synthesizer emits one answer per question, all built from the
same literal. -/
theorem claimC10 (handlers : List (String × MadnsSubConfig)) (req req2 : Msg)
    (hq : req.Question.head? = req2.Question.head?) :
    selectPolicy handlers req = selectPolicy handlers req2 ∧
    (∀ (r : Msg) (lit : String),
      (handleRespond r lit).Answer = r.Question.map (fun q => buildAnswer q lit) ∧
      (handleRespond r lit).Answer.length = r.Question.length) := by
  constructor
  · unfold selectPolicy
    rw [matchHandlers_head_congr req req2 hq handlers]
  · intro r lit
    exact ⟨rfl, by simp [handleRespond]⟩

/-- Witness for C10 at a concrete input: two two-question queries agreeing
on the first question select the same policy. -/
theorem claimC10_witness :
    selectPolicy cfgN.Handlers { Question := [{ Name := "x.com." }, { Name := "a.org." }] } =
      selectPolicy cfgN.Handlers { Question := [{ Name := "x.com." }, { Name := "b.org." }] } :=
  (claimC10 cfgN.Handlers { Question := [{ Name := "x.com." }, { Name := "a.org." }] }
    { Question := [{ Name := "x.com." }, { Name := "b.org." }] } (by decide)).1

/-! ## Claim C4 -/

/-- C4: the forwarder attempts the upstream exchange at most twice.  If the
first exchange succeeds, or the first fails and the single retry succeeds,
the client receives the forwarded reply marked compression-eligible; if
both attempts fail, the client receives a server-failure reply.  The final
conjunct expresses "no further retries": the written reply depends only on
the outcomes of attempts 0 and 1. -/
theorem claimC4 (req : Msg) (exchange : Nat → Option Msg) :
    (∀ r, exchange 0 = some r →
      handleRedirect req exchange = { r with Compress := true }) ∧
    (∀ r, exchange 0 = none → exchange 1 = some r →
      handleRedirect req exchange = { r with Compress := true }) ∧
    (exchange 0 = none → exchange 1 = none →
      handleRedirect req exchange = setRcode req RcodeServerFailure) ∧
    (∀ exchange2, exchange 0 = exchange2 0 → exchange 1 = exchange2 1 →
      handleRedirect req exchange = handleRedirect req exchange2) := by
  refine ⟨?_, ?_, ?_, ?_⟩
  · intro r h0
    simp [handleRedirect, redirectReply, h0]
  · intro r h0 h1
    simp [handleRedirect, redirectReply, h0, h1]
  · intro h0 h1
    simp [handleRedirect, redirectReply, h0, h1]
  · intro e2 h0 h1
    cases hc0 : exchange 0 with
    | some r =>
      have g0 : e2 0 = some r := by rw [← h0, hc0]
      simp [handleRedirect, redirectReply, hc0, g0]
    | none =>
      have g0 : e2 0 = none := by rw [← h0, hc0]
      cases hc1 : exchange 1 with
      | some r =>
        have g1 : e2 1 = some r := by rw [← h1, hc1]
        simp [handleRedirect, redirectReply, hc0, g0, hc1, g1]
      | none =>
        have g1 : e2 1 = none := by rw [← h1, hc1]
        simp [handleRedirect, redirectReply, hc0, g0, hc1, g1]

/-- Witness for C4 at a concrete input: an upstream that always fails makes
the forwarder write a server-failure reply. -/
theorem claimC4_witness :
    handleRedirect reqR exNone = setRcode reqR RcodeServerFailure :=
  (claimC4 reqR exNone).2.2.1 rfl rfl

/-! ## Claim C7 -/

/-- C7: classification of the respond literal, in the source's order and
with Go's notion of address class (`ParseIP` plus `To4`: a literal whose
parse has a 4-byte form — dotted-quad or v4-mapped — is an IPv4 address and
yields an A record with that address; a parse with no 4-byte form yields an
AAAA record; a failed parse yields a CNAME).  Every synthesized record
carries TTL 0 and the owner name of its question, and exactly one answer is
produced per question of the inbound query. -/
theorem claimC7 (req : Msg) (lit : String) (i : Nat) (q : Question)
    (hqi : req.Question[i]? = some q) :
    (handleRespond req lit).Answer.length = req.Question.length ∧
    (ParseIP lit = none →
      (handleRespond req lit).Answer[i]? =
        some (RR.CNAME { Name := q.Name, Rrtype := TypeCNAME, Class := ClassINET, Ttl := 0 }
          (trimSuffix lit "." ++ "."))) ∧
    (∀ ip, ParseIP lit = some ip → To4 ip = none →
      (handleRespond req lit).Answer[i]? =
        some (RR.AAAA { Name := q.Name, Rrtype := TypeAAAA, Class := ClassINET, Ttl := 0 }
          ip)) ∧
    (∀ ip ip4, ParseIP lit = some ip → To4 ip = some ip4 →
      (handleRespond req lit).Answer[i]? =
        some (RR.A { Name := q.Name, Rrtype := TypeA, Class := ClassINET, Ttl := 0 } ip)) := by
  refine ⟨by simp [handleRespond], ?_, ?_, ?_⟩
  · intro hp
    simp [handleRespond, List.getElem?_map, hqi, buildAnswer, hp]
  · intro ip hp h4
    simp [handleRespond, List.getElem?_map, hqi, buildAnswer, hp, h4]
  · intro ip ip4 hp h4
    simp [handleRespond, List.getElem?_map, hqi, buildAnswer, hp, h4]

/-- Witness for C7 at a concrete input: `203.0.113.5` synthesizes an A
record (in the 16-byte form `net.ParseIP` returns) with TTL 0, named after
the question. -/
theorem claimC7_witness :
    (handleRespond { Question := [{ Name := "q.example." }] } "203.0.113.5").Answer[0]? =
      some (RR.A { Name := "q.example.", Rrtype := TypeA, Class := ClassINET, Ttl := 0 }
        [0, 0, 0, 0, 0, 0, 0, 0, 0, 0, 255, 255, 203, 0, 113, 5]) :=
  (claimC7 { Question := [{ Name := "q.example." }] } "203.0.113.5" 0 { Name := "q.example." }
      (by decide)).2.2.2
    [0, 0, 0, 0, 0, 0, 0, 0, 0, 0, 255, 255, 203, 0, 113, 5] [203, 0, 113, 5]
    (by decide) (by decide)

/-! ## Claim C8 -/

/-- Counterexample to C8 as stated: the literal `"a.."` fails the IP parse,
and its CNAME target is `"a.."` again — `strings.TrimSuffix` removes only
one trailing dot, so the target ends in two dots, not exactly one. -/
theorem claimC8_counterexample :
    (handleRespond { Question := [{ Name := "q.example." }] } "a..").Answer =
      [RR.CNAME { Name := "q.example.", Rrtype := TypeCNAME, Class := ClassINET, Ttl := 0 }
        "a.."] ∧
    hasSuffix "a.." ".." = true := by
  constructor
  · decide
  · decide

/-- C8 amended: for every literal that does not parse as an IPv4 or IPv6
address, the synthesized CNAME target is the literal with at most one
trailing dot stripped and exactly one `"."` appended; the target therefore
always ends in a trailing dot, and in exactly one unless the literal itself
ended in two or more dots.  No literal is rejected: one CNAME answer is
produced per question. -/
theorem claimC8 (lit : String) (hp : ParseIP lit = none) (req : Msg) (i : Nat) (q : Question)
    (hqi : req.Question[i]? = some q) :
    (handleRespond req lit).Answer[i]? =
      some (RR.CNAME { Name := q.Name, Rrtype := TypeCNAME, Class := ClassINET, Ttl := 0 }
        (trimSuffix lit "." ++ ".")) ∧
    hasSuffix (trimSuffix lit "." ++ ".") "." = true ∧
    (hasSuffix lit ".." = false → hasSuffix (trimSuffix lit "." ++ ".") ".." = false) ∧
    (handleRespond req lit).Answer.length = req.Question.length := by
  refine ⟨?_, hasSuffix_append_dot _, trim_dot_no_double lit, by simp [handleRespond]⟩
  simp [handleRespond, List.getElem?_map, hqi, buildAnswer, hp]

/-! ## Matcher lemmas shared by C5, C6 and C9 -/

/-- Soundness of the handler scan: a returned key is never the default and
satisfies the match condition for the first question's name. -/
theorem matchHandlers_sound (req : Msg) (q : Question) (hq : req.Question.head? = some q) :
    ∀ handlers k c, matchHandlers handlers req = some (some (k, c)) →
      k ≠ "." ∧ matchesKey q.Name k = true := by
  intro handlers
  induction handlers with
  | nil =>
    intro k c hm
    simp [matchHandlers] at hm
  | cons hd tl ih =>
    intro k c hm
    obtain ⟨k0, v0⟩ := hd
    by_cases h0 : k0 = "."
    · simp only [matchHandlers, if_pos h0] at hm
      exact ih k c hm
    · simp only [matchHandlers, if_neg h0, hq] at hm
      by_cases hmk : matchesKey q.Name k0 = true
      · rw [if_pos hmk] at hm
        have h2 : k0 = k ∧ v0 = c := by simpa using hm
        exact ⟨h2.1 ▸ h0, h2.1 ▸ hmk⟩
      · rw [if_neg hmk] at hm
        exact ih k c hm

/-- Completeness: if some non-default key matches, the scan returns a
non-default key (whatever the iteration order embodied in the list). -/
theorem matchHandlers_found (req : Msg) (q : Question) (hq : req.Question.head? = some q) :
    ∀ handlers, (∃ p ∈ handlers, p.1 ≠ "." ∧ matchesKey q.Name p.1 = true) →
      ∃ k c, matchHandlers handlers req = some (some (k, c)) ∧ k ≠ "." := by
  intro handlers
  induction handlers with
  | nil =>
    rintro ⟨p, hp, _⟩
    simp at hp
  | cons hd tl ih =>
    rintro ⟨p, hp, hne, hmk⟩
    obtain ⟨k0, v0⟩ := hd
    by_cases h0 : k0 = "."
    · have hp' : p ∈ tl := by
        rcases List.mem_cons.mp hp with h | h
        · exact absurd (h ▸ h0) hne
        · exact h
      obtain ⟨k, c, hm, hk⟩ := ih ⟨p, hp', hne, hmk⟩
      refine ⟨k, c, ?_, hk⟩
      simp only [matchHandlers, if_pos h0]
      exact hm
    · by_cases hmk0 : matchesKey q.Name k0 = true
      · refine ⟨k0, v0, ?_, h0⟩
        simp only [matchHandlers, if_neg h0, hq, if_pos hmk0]
      · have hp' : p ∈ tl := by
          rcases List.mem_cons.mp hp with h | h
          · exfalso
            rw [h] at hmk
            exact hmk0 hmk
          · exact h
        obtain ⟨k, c, hm, hk⟩ := ih ⟨p, hp', hne, hmk⟩
        refine ⟨k, c, ?_, hk⟩
        simp only [matchHandlers, if_neg h0, hq, if_neg hmk0]
        exact hm

/-- If every non-default key fails the match condition, the scan finishes
without a match. -/
theorem matchHandlers_nomatch (req : Msg) (q : Question) (hq : req.Question.head? = some q) :
    ∀ handlers, (∀ p ∈ handlers, p.1 ≠ "." → matchesKey q.Name p.1 = false) →
      matchHandlers handlers req = some none := by
  intro handlers
  induction handlers with
  | nil => intro _; rfl
  | cons hd tl ih =>
    intro hall
    obtain ⟨k0, v0⟩ := hd
    by_cases h0 : k0 = "."
    · simp only [matchHandlers, if_pos h0]
      exact ih fun p hp => hall p (List.mem_cons_of_mem _ hp)
    · have hf : matchesKey q.Name k0 = false := hall (k0, v0) (List.mem_cons_self _ _) h0
      simp only [matchHandlers, if_neg h0, hq]
      rw [if_neg (by rw [hf]; exact Bool.false_ne_true)]
      exact ih fun p hp => hall p (List.mem_cons_of_mem _ hp)

/-- With a non-empty question section the scan cannot panic. -/
theorem matchHandlers_total (req : Msg) (q : Question) (hq : req.Question.head? = some q) :
    ∀ handlers, (matchHandlers handlers req).isSome = true := by
  intro handlers
  induction handlers with
  | nil => rfl
  | cons hd tl ih =>
    obtain ⟨k0, v0⟩ := hd
    by_cases h0 : k0 = "."
    · simpa only [matchHandlers, if_pos h0] using ih
    · simp only [matchHandlers, if_neg h0, hq]
      by_cases hmk : matchesKey q.Name k0 = true
      · rw [if_pos hmk]
        rfl
      · rw [if_neg hmk]
        exact ih

/-- With an empty question section the scan panics as soon as it reaches a
non-default key. -/
theorem matchHandlers_empty_panic (req : Msg) (hq : req.Question.head? = none) :
    ∀ handlers, (∃ p ∈ handlers, p.1 ≠ ".") → matchHandlers handlers req = none := by
  intro handlers
  induction handlers with
  | nil =>
    rintro ⟨p, hp, _⟩
    simp at hp
  | cons hd tl ih =>
    rintro ⟨p, hp, hne⟩
    obtain ⟨k0, v0⟩ := hd
    by_cases h0 : k0 = "."
    · have hp' : p ∈ tl := by
        rcases List.mem_cons.mp hp with h | h
        · exact absurd (h ▸ h0) hne
        · exact h
      simp only [matchHandlers, if_pos h0]
      exact ih ⟨p, hp', hne⟩
    · simp only [matchHandlers, if_neg h0, hq]

/-- A scan over default-only keys never touches the question section. -/
theorem matchHandlers_all_default (req : Msg) :
    ∀ handlers, (∀ p ∈ handlers, p.1 = ".") → matchHandlers handlers req = some none := by
  intro handlers
  induction handlers with
  | nil => intro _; rfl
  | cons hd tl ih =>
    intro hall
    obtain ⟨k0, v0⟩ := hd
    have h0 : k0 = "." := hall (k0, v0) (List.mem_cons_self _ _)
    simp only [matchHandlers, if_pos h0]
    exact ih fun p hp => hall p (List.mem_cons_of_mem _ hp)

/-! ## Rebind round-robin lemmas shared by C2 -/

/-- One `handleDNS` call on a matched rebind-only policy: the written reply
synthesizes the list entry at `(counter mod 2^64) mod n` and only the
matched key's counter advances. -/
theorem handleDNS_rebind (req : Msg) (config : MadnsConfig) (exchange : Nat → Option Msg)
    (ck : String) (c : MadnsSubConfig) (rc : MadnsRebindConfig)
    (hsel : selectPolicy config.Handlers req = some (some (ck, c)))
    (hr : c.Redirect.length = 0) (hresp : c.Respond.length = 0)
    (hreb : c.Rebind = some rc) (hlen : 0 < rc.Addrs.length) (st : RebindState) :
    handleDNS req config exchange st =
      some (⟨[handleRespond req (rc.Addrs.getD (st ck % U64 % rc.Addrs.length) "")],
             notifyEmails c, notifySlacks c⟩,
            fun k => if k = ck then (st ck + 1) % U64 else st k) := by
  simp [handleDNS, hsel, dispatchMatched, hr, hresp, hreb, hlen, rebindIdx, rebindIdx2]

/-- After `n` sequential dispatches on a matched rebind-only policy the
matched key's counter is congruent to its start value plus `n`
modulo `2 ^ 64`. -/
theorem stateAfter_rebind (req : Msg) (config : MadnsConfig) (exchange : Nat → Option Msg)
    (ck : String) (c : MadnsSubConfig) (rc : MadnsRebindConfig)
    (hsel : selectPolicy config.Handlers req = some (some (ck, c)))
    (hr : c.Redirect.length = 0) (hresp : c.Respond.length = 0)
    (hreb : c.Rebind = some rc) (hlen : 0 < rc.Addrs.length) (st : RebindState) :
    ∀ n, ∃ s, stateAfter req config exchange st n = some s ∧
      s ck % U64 = (st ck + n) % U64 := by
  intro n
  induction n with
  | zero => exact ⟨st, rfl, by rw [Nat.add_zero]⟩
  | succ n ih =>
    obtain ⟨s, hs, hmod⟩ := ih
    refine ⟨fun k => if k = ck then (s ck + 1) % U64 else s k, ?_, ?_⟩
    · simp only [stateAfter, hs, Option.some_bind]
      rw [handleDNS_rebind req config exchange ck c rc hsel hr hresp hreb hlen s]
      rfl
    · show (if ck = ck then (s ck + 1) % U64 else s ck) % U64 = (st ck + (n + 1)) % U64
      rw [if_pos rfl, mod_U64_mod, ← Nat.mod_add_mod, hmod, Nat.mod_add_mod,
        ← Nat.add_assoc]

/-! ## Claim C2 -/

/-- Counterexample to C2 as stated: for the rebind policy of `cfgR` with
list length 3 and a fresh counter, the `(2^64 + 1)`-st sequential dispatch
answers with `10.0.0.1` (index 0: the uint64 counter has wrapped), while
the claimed index `(j - 1) mod n = 2^64 mod 3` selects `10.0.0.2`. -/
theorem claimC2_counterexample :
    (dispatchAt reqR cfgR exNone st0 (2 ^ 64)).map (fun r => r.writes) =
      some [handleRespond reqR "10.0.0.1"] ∧
    rebindAddrs.getD ((2 ^ 64 + 1 - 1) % rebindAddrs.length) "" = "10.0.0.2" ∧
    "10.0.0.1" ≠ "10.0.0.2" := by
  refine ⟨?_, by decide, by decide⟩
  obtain ⟨s, hs, hmod⟩ := stateAfter_rebind reqR cfgR exNone "rebind.test"
    { Rebind := some { Addrs := rebindAddrs } } { Addrs := rebindAddrs }
    (by decide) rfl rfl rfl (by decide) st0 (2 ^ 64)
  have hz : s "rebind.test" % U64 = 0 := by
    rw [hmod]
    show (0 + 2 ^ 64) % 2 ^ 64 = 0
    rw [Nat.zero_add, Nat.mod_self]
  simp only [dispatchAt, hs, Option.some_bind]
  rw [handleDNS_rebind reqR cfgR exNone "rebind.test"
    { Rebind := some { Addrs := rebindAddrs } } { Addrs := rebindAddrs }
    (by decide) rfl rfl rfl (by decide) s, hz]
  rfl

/-- C2 corrected: with a fresh counter for the matched key, the `j`-th
sequential dispatch of a rebind policy answers with the list entry at index
`((j - 1) mod 2^64) mod n` — the counter is a uint64, so the exact cyclic
order `addrs[0], addrs[1], …` of the claim holds for the first `2^64`
dispatches (second conjunct) and wraps to index 0 after `2^64` dispatches
regardless of `n`.  In particular the first dispatch for a key uses
index 0. -/
theorem claimC2 (req : Msg) (config : MadnsConfig) (exchange : Nat → Option Msg)
    (st : RebindState) (ck : String) (c : MadnsSubConfig) (rc : MadnsRebindConfig)
    (hsel : selectPolicy config.Handlers req = some (some (ck, c)))
    (hr : c.Redirect.length = 0) (hresp : c.Respond.length = 0)
    (hreb : c.Rebind = some rc) (hlen : 0 < rc.Addrs.length)
    (hst : st ck = 0) (j : Nat) (hj : 1 ≤ j) :
    (dispatchAt req config exchange st (j - 1)).map (fun r => r.writes) =
      some [handleRespond req (rc.Addrs.getD ((j - 1) % U64 % rc.Addrs.length) "")] ∧
    (j ≤ U64 →
      (dispatchAt req config exchange st (j - 1)).map (fun r => r.writes) =
        some [handleRespond req (rc.Addrs.getD ((j - 1) % rc.Addrs.length) "")]) := by
  obtain ⟨s, hs, hmod⟩ :=
    stateAfter_rebind req config exchange ck c rc hsel hr hresp hreb hlen st (j - 1)
  rw [hst, Nat.zero_add] at hmod
  have h1 : (dispatchAt req config exchange st (j - 1)).map (fun r => r.writes) =
      some [handleRespond req (rc.Addrs.getD ((j - 1) % U64 % rc.Addrs.length) "")] := by
    simp only [dispatchAt, hs, Option.some_bind]
    rw [handleDNS_rebind req config exchange ck c rc hsel hr hresp hreb hlen s, hmod]
    rfl
  refine ⟨h1, fun hjU => ?_⟩
  have he : (j - 1) % U64 = j - 1 := by
    have hpos := U64_pos
    exact Nat.mod_eq_of_lt (by omega)
  rw [h1, he]

/-- Witness for C2 (amended) at a concrete input: the first dispatch for a
fresh key answers with index 0 of the rebind list. -/
theorem claimC2_witness :
    (dispatchAt reqR cfgR exNone st0 (1 - 1)).map (fun r => r.writes) =
      some [handleRespond reqR (rebindAddrs.getD ((1 - 1) % rebindAddrs.length) "")] :=
  ((claimC2 reqR cfgR exNone st0 "rebind.test"
      { Rebind := some { Addrs := rebindAddrs } } { Addrs := rebindAddrs }
      (by decide) rfl rfl rfl (by decide) rfl 1 (by decide)).2 U64_pos)

/-! ## Claim C5 -/

/-- C5: the matcher selects a non-default key `k` only if the lowercased
query name equals the lowercased fully-qualified form of `k` or ends with
`"."` followed by that form; consequently `evilexample.com` never matches a
policy keyed `example.com`, and the match condition is invariant under
lowercasing both the query name and the key. -/
theorem claimC5 (handlers : List (String × MadnsSubConfig)) (req : Msg)
    (k : String) (c : MadnsSubConfig) (q : Question)
    (hm : matchHandlers handlers req = some (some (k, c)))
    (hq : req.Question.head? = some q) :
    k ≠ "." ∧
    (lower q.Name = lower (Fqdn k) ∨
      hasSuffix (lower q.Name) ("." ++ lower (Fqdn k)) = true) ∧
    matchesKey "evilexample.com." "example.com" = false ∧
    (∀ name key, matchesKey (lower name) (lower key) = matchesKey name key) := by
  have hs := matchHandlers_sound req q hq handlers k c hm
  refine ⟨hs.1, ?_, by decide, matchesKey_lower⟩
  have h2 := hs.2
  rw [show matchesKey q.Name k =
      (lower q.Name == lower (Fqdn k) || hasSuffix (lower q.Name) ("." ++ lower (Fqdn k)))
    from rfl] at h2
  rw [Bool.or_eq_true] at h2
  rcases h2 with h | h
  · exact Or.inl (beq_iff_eq.mp h)
  · exact Or.inr h

/-- Witness for C5 at a concrete input: the key `Example.COM` is selected
for the query `sub.example.com.` and satisfies the label-boundary suffix
condition. -/
theorem claimC5_witness :
    ("Example.COM" : String) ≠ "." ∧
    (lower "sub.example.com." = lower (Fqdn "Example.COM") ∨
      hasSuffix (lower "sub.example.com.") ("." ++ lower (Fqdn "Example.COM")) = true) :=
  ⟨(claimC5 [("Example.COM", {})] { Question := [{ Name := "sub.example.com." }] }
      "Example.COM" {} { Name := "sub.example.com." } (by decide) rfl).1,
   (claimC5 [("Example.COM", {})] { Question := [{ Name := "sub.example.com." }] }
      "Example.COM" {} { Name := "sub.example.com." } (by decide) rfl).2.1⟩

/-! ## Claim C6 -/

/-- C6: the default key `"."` is consulted only after every non-default key
has failed.  If some non-default key matches, a non-default policy is
dispatched; if none matches and `"."` is configured, its policy is
dispatched under the key `"."`; if neither, the dispatcher writes exactly
one server-failure reply with an empty answer section, fires no
notification, leaves the rebind state unchanged, and does nothing else. -/
theorem claimC6 (config : MadnsConfig) (req : Msg) (q : Question)
    (hq : req.Question.head? = some q) (exchange : Nat → Option Msg) (st : RebindState) :
    ((∃ p ∈ config.Handlers, p.1 ≠ "." ∧ matchesKey q.Name p.1 = true) →
      ∃ k c, matchHandlers config.Handlers req = some (some (k, c)) ∧ k ≠ "." ∧
        handleDNS req config exchange st = some (dispatchMatched req exchange st k c)) ∧
    ((∀ p ∈ config.Handlers, p.1 ≠ "." → matchesKey q.Name p.1 = false) →
      (∀ c, lookupDefault config.Handlers = some c →
        handleDNS req config exchange st = some (dispatchMatched req exchange st "." c)) ∧
      (lookupDefault config.Handlers = none →
        handleDNS req config exchange st =
          some (⟨[setRcode req RcodeServerFailure], [], []⟩, st))) ∧
    (setRcode req RcodeServerFailure).Answer = [] := by
  refine ⟨?_, ?_, rfl⟩
  · intro hex
    obtain ⟨k, c, hm, hk⟩ := matchHandlers_found req q hq config.Handlers hex
    refine ⟨k, c, hm, hk, ?_⟩
    simp [handleDNS, selectPolicy, hm]
  · intro hall
    have hm := matchHandlers_nomatch req q hq config.Handlers hall
    constructor
    · intro c hd
      simp [handleDNS, selectPolicy, hm, hd]
    · intro hd
      simp [handleDNS, selectPolicy, hm, hd, hq]

/-- Witness for C6 at a concrete input: a query matching no configured key
of a default-less config gets exactly one server-failure reply and no
notification. -/
theorem claimC6_witness :
    handleDNS { Question := [{ Name := "other.org." }] } cfgN exNone st0 =
      some (⟨[setRcode { Question := [{ Name := "other.org." }] } RcodeServerFailure],
             [], []⟩, st0) :=
  ((claimC6 cfgN { Question := [{ Name := "other.org." }] } { Name := "other.org." }
      rfl exNone st0).2.1 (by decide)).2 (by decide)

/-! ## Claim C9 -/

/-- Counterexample to C9 as stated: with a config whose only handler key is
the default `"."` and an empty question section, `handleDNS` completes
without ever indexing `Question[0]` — the dispatcher is total on this
empty-question input, so non-emptiness is not necessary for totality. -/
theorem claimC9_counterexample :
    (handleDNS {} { Handlers := [(".", { Respond := "1.2.3.4" })] } exNone st0).isSome
      = true := by
  decide

/-- C9 amended: `handleDNS` is total whenever the question section is
non-empty; with an empty question section it reaches the unguarded
`req.Question[0]` (modelled `none`) as soon as the config has any
non-default key (the scan indexes the name at line 113) or has no handlers
at all (the warning log of line 132 indexes it), while a non-empty config
whose keys are all the default `"."` completes even on an empty question
section. -/
theorem claimC9 (req : Msg) (config : MadnsConfig) (exchange : Nat → Option Msg)
    (st : RebindState) :
    (req.Question ≠ [] → (handleDNS req config exchange st).isSome = true) ∧
    (req.Question = [] → (∃ p ∈ config.Handlers, p.1 ≠ ".") →
      handleDNS req config exchange st = none) ∧
    (req.Question = [] → config.Handlers = [] →
      handleDNS req config exchange st = none) ∧
    (req.Question = [] → config.Handlers ≠ [] → (∀ p ∈ config.Handlers, p.1 = ".") →
      (handleDNS req config exchange st).isSome = true) := by
  refine ⟨?_, ?_, ?_, ?_⟩
  · intro hne
    obtain ⟨q, hq⟩ : ∃ q, req.Question.head? = some q := by
      cases hQ : req.Question with
      | nil => exact absurd hQ hne
      | cons a b => exact ⟨a, rfl⟩
    have htot := matchHandlers_total req q hq config.Handlers
    cases hm : matchHandlers config.Handlers req with
    | none =>
      rw [hm] at htot
      simp at htot
    | some o =>
      cases o with
      | none =>
        cases hd : lookupDefault config.Handlers with
        | none => simp [handleDNS, selectPolicy, hm, hd, hq]
        | some c => simp [handleDNS, selectPolicy, hm, hd]
      | some kv => simp [handleDNS, selectPolicy, hm]
  · intro hQ hex
    have hq : req.Question.head? = none := by rw [hQ]; rfl
    have hm := matchHandlers_empty_panic req hq config.Handlers hex
    simp [handleDNS, selectPolicy, hm]
  · intro hQ hcfg
    have hq : req.Question.head? = none := by rw [hQ]; rfl
    simp [handleDNS, selectPolicy, hcfg, matchHandlers, lookupDefault, hq]
  · intro hQ hne hall
    obtain ⟨⟨k0, v0⟩, tl, hcons⟩ : ∃ hd tl, config.Handlers = hd :: tl := by
      cases hc : config.Handlers with
      | nil => exact absurd hc hne
      | cons a b => exact ⟨a, b, rfl⟩
    have h0 : k0 = "." := hall (k0, v0) (by rw [hcons]; exact List.mem_cons_self _ _)
    have hm := matchHandlers_all_default req config.Handlers hall
    have hld : lookupDefault config.Handlers = some v0 := by
      rw [hcons]
      simp [lookupDefault, List.find?, h0]
    simp [handleDNS, selectPolicy, hm, hld]

/-- Witness for C9 (amended) at a concrete input: an empty-question query
against a config with a non-default key makes the dispatcher hit the
unguarded `Question[0]` (modelled as `none`). -/
theorem claimC9_witness :
    handleDNS {} cfgN exNone st0 = none :=
  (claimC9 {} cfgN exNone st0).2.1 rfl ⟨("x.com", subN), by decide, by decide⟩

/-- Witness for C8 at a concrete input: `cname.example.org` yields a CNAME
target `cname.example.org.` with exactly one trailing dot. -/
theorem claimC8_witness :
    (handleRespond { Question := [{ Name := "q.example." }] } "cname.example.org").Answer[0]? =
      some (RR.CNAME { Name := "q.example.", Rrtype := TypeCNAME, Class := ClassINET, Ttl := 0 }
        (trimSuffix "cname.example.org" "." ++ ".")) ∧
    hasSuffix (trimSuffix "cname.example.org" "." ++ ".") ".." = false :=
  ⟨(claimC8 "cname.example.org" (by decide) { Question := [{ Name := "q.example." }] } 0
      { Name := "q.example." } (by decide)).1,
   (claimC8 "cname.example.org" (by decide) { Question := [{ Name := "q.example." }] } 0
      { Name := "q.example." } (by decide)).2.2.1 (by decide)⟩

end Madns
